import Mathlib

/-!
Verification of the get_peers message layer of bip-rs (bip_dht) and the
metainfo iterators (bip_metainfo), as a shallow embedding in Lean 4.

The bencode value model, the transaction-scoped validation helpers
(RequestValidate / ResponseValidate) and the compact-info views live in
crates of the repository that are not part of the given sources; they are
modelled from the specification (sections 4.1 and 4.2) and marked as such.
The functions in src/bip_dht/src/message/get_peers.rs and
src/bip_metainfo/src/iter.rs are translated directly.
-/

namespace BipRs

/-- A byte string, each entry a byte value. -/
abbrev Bytes := List Nat

/-- Modelled from the spec: the external bencode value model, a tree of
integers, byte strings, lists and dictionaries.  A dictionary is an
association list with distinct keys (the Rust side uses a BTreeMap). -/
inductive Bencode where
  | int : Int → Bencode
  | bytes : Bytes → Bencode
  | list : List Bencode → Bencode
  | dict : List (Bytes × Bencode) → Bencode

/-- A bencode dictionary: keys mapped to bencode values. -/
abbrev Dict := List (Bytes × Bencode)

/-- The error kinds of the DHT error taxonomy (spec section 7). -/
inductive DhtErrorKind where
  | missingKey
  | wrongType
  | invalidIdentifierLength
  | invalidNodesEncoding
  | invalidValueEncoding
  | invalidResponse
deriving DecidableEq, Repr

/-- Result type of the DHT message layer: a value or a typed error kind. -/
abbrev DhtResult (α : Type) := Except DhtErrorKind α

/-! ### Message keys (ASCII byte strings, from bip_dht message constants) -/

/-- Key "t". -/
def TRANSACTION_ID_KEY : Bytes := [116]
/-- Key "y". -/
def MESSAGE_TYPE_KEY : Bytes := [121]
/-- Key "q", also the message-type value marking a query. -/
def REQUEST_TYPE_KEY : Bytes := [113]
/-- Key "r", also the message-type value marking a response. -/
def RESPONSE_ARGS_KEY : Bytes := [114]
/-- Key "a". -/
def REQUEST_ARGS_KEY : Bytes := [97]
/-- Key "id". -/
def NODE_ID_KEY : Bytes := [105, 100]
/-- Key "info_hash". -/
def INFO_HASH_KEY : Bytes := [105, 110, 102, 111, 95, 104, 97, 115, 104]
/-- Key "token". -/
def TOKEN_KEY : Bytes := [116, 111, 107, 101, 110]
/-- Key "nodes". -/
def NODES_KEY : Bytes := [110, 111, 100, 101, 115]
/-- Key "values". -/
def VALUES_KEY : Bytes := [118, 97, 108, 117, 101, 115]
/-- Query-name value "get_peers". -/
def GET_PEERS_TYPE_KEY : Bytes := [103, 101, 116, 95, 112, 101, 101, 114, 115]

/-! ### Validation helper (spec section 4.1) -/

/-- Modelled from the spec: lookup of a key in a bencode dictionary
(the external Dictionary::lookup of bip_bencode); first match wins,
keys are distinct on the Rust side. -/
def dictLookup : Dict → Bytes → Option Bencode
  | [], _ => none
  | (k, v) :: rest, key => if k = key then some v else dictLookup rest key

/-- Modelled from the spec: lookup_and_convert_bytes of the validation
helper: the byte-string value for the key, MissingKey if absent,
WrongType if present but not a byte string. -/
def lookup_and_convert_bytes (d : Dict) (key : Bytes) : DhtResult Bytes :=
  match dictLookup d key with
  | none => .error .missingKey
  | some (.bytes b) => .ok b
  | some _ => .error .wrongType

/-- Modelled from the spec: lookup_and_convert_list of the validation
helper: the list value for the key, MissingKey if absent, WrongType if
present but not a list. -/
def lookup_and_convert_list (d : Dict) (key : Bytes) : DhtResult (List Bencode) :=
  match dictLookup d key with
  | none => .error .missingKey
  | some (.list l) => .ok l
  | some _ => .error .wrongType

/-- Modelled from the spec: validate_node_id succeeds iff the byte string
has length exactly 20, otherwise InvalidIdentifierLength. -/
def validate_node_id (b : Bytes) : DhtResult Unit :=
  if b.length = 20 then .ok () else .error .invalidIdentifierLength

/-! ### Compact contact codecs (spec sections 3 and 4.2) -/

/-- Modelled from the spec: CompactNodeInfo, a view over a byte string of
concatenated 26-byte contact records; its length is an exact multiple
of 26 by construction. -/
structure CompactNodeInfo where
  nodes : Bytes
  nodes_mod : nodes.length % 26 = 0

/-- Record count of a CompactNodeInfo view (len / 26). -/
def CompactNodeInfo.len (c : CompactNodeInfo) : Nat :=
  c.nodes.length / 26

/-- Whether a bencode value is a valid compact peer record: a byte string
of length exactly 6. -/
def isCompactValue : Bencode → Bool
  | .bytes b => b.length == 6
  | _ => false

/-- Modelled from the spec: CompactValueInfo, a view over a list of
byte strings each of length exactly 6, guaranteed by construction. -/
structure CompactValueInfo where
  values : List Bencode
  values_valid : values.all isCompactValue = true

/-- Modelled from the spec: validate_nodes succeeds iff the byte string
length is a multiple of 26, producing a CompactNodeInfo view, otherwise
InvalidNodesEncoding. -/
def validate_nodes (b : Bytes) : DhtResult CompactNodeInfo :=
  if h : b.length % 26 = 0 then .ok ⟨b, h⟩ else .error .invalidNodesEncoding

/-- Modelled from the spec: validate_values succeeds iff every element of
the list is a byte string of length exactly 6, producing a
CompactValueInfo view, otherwise InvalidValueEncoding. -/
def validate_values (l : List Bencode) : DhtResult CompactValueInfo :=
  if h : l.all isCompactValue = true then .ok ⟨l, h⟩
  else .error .invalidValueEncoding

/-! ### GetPeersRequest (src/bip_dht/src/message/get_peers.rs) -/

/-- The typed get_peers request: transaction id, sender node id, target
info hash. -/
structure GetPeersRequest where
  trans_id : Bytes
  node_id : Bytes
  info_hash : Bytes
deriving DecidableEq, Repr

/-- GetPeersRequest::new: validates both identifiers are 20 bytes. -/
def GetPeersRequest.new (trans_id node_id info_hash : Bytes) :
    DhtResult GetPeersRequest := do
  validate_node_id node_id
  validate_node_id info_hash
  pure ⟨trans_id, node_id, info_hash⟩

/-- GetPeersRequest::from_parts: looks up "id" and "info_hash" in the
request arguments dictionary, then delegates to new. -/
def GetPeersRequest.from_parts (rqst_root : Dict) (trans_id : Bytes) :
    DhtResult GetPeersRequest := do
  let node_id ← lookup_and_convert_bytes rqst_root NODE_ID_KEY
  let info_hash ← lookup_and_convert_bytes rqst_root INFO_HASH_KEY
  GetPeersRequest.new trans_id node_id info_hash

/-- GetPeersRequest::encode, at the bencode value level: the dictionary
assembled by the ben_map! expression, keys in BTreeMap (lexicographic)
order; the final byte serialization is the external bencode encoder. -/
def GetPeersRequest.encode (r : GetPeersRequest) : Bencode :=
  .dict [
    (REQUEST_ARGS_KEY, .dict [
      (NODE_ID_KEY, .bytes r.node_id),
      (INFO_HASH_KEY, .bytes r.info_hash)]),
    (REQUEST_TYPE_KEY, .bytes GET_PEERS_TYPE_KEY),
    (TRANSACTION_ID_KEY, .bytes r.trans_id),
    (MESSAGE_TYPE_KEY, .bytes REQUEST_TYPE_KEY)]

/-- The arguments sub-dictionary (key "a") of an encoded request. -/
def requestArgs (b : Bencode) : Option Dict :=
  match b with
  | .dict d =>
    match dictLookup d REQUEST_ARGS_KEY with
    | some (.dict a) => some a
    | _ => none
  | _ => none

/-! ### GetPeersResponse (src/bip_dht/src/message/get_peers.rs) -/

/-- The three-shape response payload. -/
inductive CompactInfoType where
  | Nodes : CompactNodeInfo → CompactInfoType
  | Values : CompactValueInfo → CompactInfoType
  | Both : CompactNodeInfo → CompactValueInfo → CompactInfoType

/-- The typed get_peers response. -/
structure GetPeersResponse where
  trans_id : Bytes
  node_id : Bytes
  token : Option Bytes
  info_type : CompactInfoType

/-- GetPeersResponse::new: validates the node id length; accepts any
token and payload. -/
def GetPeersResponse.new (trans_id node_id : Bytes) (token : Option Bytes)
    (info_type : CompactInfoType) : DhtResult GetPeersResponse := do
  validate_node_id node_id
  pure ⟨trans_id, node_id, token, info_type⟩

/-- GetPeersResponse::from_parts: required "id" lookup, best-effort
"token" lookup, then the four-way case on the "nodes" and "values"
lookups, validating whatever was found. -/
def GetPeersResponse.from_parts (rsp_root : Dict) (trans_id : Bytes) :
    DhtResult GetPeersResponse := do
  let node_id ← lookup_and_convert_bytes rsp_root NODE_ID_KEY
  let token := (lookup_and_convert_bytes rsp_root TOKEN_KEY).toOption
  let maybe_nodes := lookup_and_convert_bytes rsp_root NODES_KEY
  let maybe_values := lookup_and_convert_list rsp_root VALUES_KEY
  let info_type ← match maybe_nodes, maybe_values with
    | .ok nodes, .ok values => do
      let nodes_info ← validate_nodes nodes
      let values_info ← validate_values values
      pure (CompactInfoType.Both nodes_info values_info)
    | .ok nodes, .error _ => do
      let nodes_info ← validate_nodes nodes
      pure (CompactInfoType.Nodes nodes_info)
    | .error _, .ok values => do
      let values_info ← validate_values values
      pure (CompactInfoType.Values values_info)
    | .error _, .error _ => Except.error DhtErrorKind.invalidResponse
  GetPeersResponse.new trans_id node_id token info_type

/-- The "nodes" entry the encoder inserts for a payload, in BTreeMap
position (after "id", before "token"). -/
def encodeNodesEntry : CompactInfoType → Dict
  | .Nodes n => [(NODES_KEY, .bytes n.nodes)]
  | .Values _ => []
  | .Both n _ => [(NODES_KEY, .bytes n.nodes)]

/-- The "values" entry the encoder inserts for a payload, in BTreeMap
position (last). -/
def encodeValuesEntry : CompactInfoType → Dict
  | .Nodes _ => []
  | .Values v => [(VALUES_KEY, .list v.values)]
  | .Both _ v => [(VALUES_KEY, .list v.values)]

/-- The "token" entry the encoder inserts: present only when the token
is Some. -/
def encodeTokenEntry : Option Bytes → Dict
  | some tok => [(TOKEN_KEY, .bytes tok)]
  | none => []

/-- GetPeersResponse::encode, at the bencode value level: the response
arguments BTreeMap holds "id", optionally "token", and "nodes" and/or
"values" by payload variant (lexicographic key order:
id < nodes < token < values); wrapped in the response envelope. -/
def GetPeersResponse.encode (r : GetPeersResponse) : Bencode :=
  .dict [
    (REQUEST_TYPE_KEY, .bytes GET_PEERS_TYPE_KEY),
    (RESPONSE_ARGS_KEY, .dict (
      [(NODE_ID_KEY, .bytes r.node_id)] ++
      encodeNodesEntry r.info_type ++
      encodeTokenEntry r.token ++
      encodeValuesEntry r.info_type)),
    (TRANSACTION_ID_KEY, .bytes r.trans_id),
    (MESSAGE_TYPE_KEY, .bytes RESPONSE_ARGS_KEY)]

/-- The arguments sub-dictionary (key "r") of an encoded response. -/
def responseArgs (b : Bencode) : Option Dict :=
  match b with
  | .dict d =>
    match dictLookup d RESPONSE_ARGS_KEY with
    | some (.dict a) => some a
    | _ => none
  | _ => none

/-! ### Metainfo iterators (src/bip_metainfo/src/iter.rs) -/

/-- Modelled from the spec: the torrent-metadata File record of
bip_metainfo; its contents are irrelevant to the iterators, which never
inspect elements. -/
structure File where
  tag : Nat
deriving DecidableEq, Repr

/-- Iterator over each File within the MetainfoFile. -/
structure Files where
  index : Nat
  files : List File

/-- Files::new. -/
def Files.new (files : List File) : Files :=
  ⟨0, files⟩

/-- Files::next: bounds-checked get at the current index; on a hit the
index advances, on a miss the state is unchanged. -/
def Files.next (it : Files) : Option File × Files :=
  match it.files.get? it.index with
  | some file => (some file, ⟨it.index + 1, it.files⟩)
  | none => (none, it)

/-- Repeatedly call Files::next, collecting the yielded elements until
the first None or until the fuel runs out. -/
def Files.collect : Files → Nat → List File
  | _, 0 => []
  | it, fuel + 1 =>
    match Files.next it with
    | (some f, it2) => f :: Files.collect it2 fuel
    | (none, _) => []

/-- Iterator over each piece hash within the MetainfoFile. -/
structure Pieces where
  index : Nat
  pieces : List Bytes

/-- Pieces::new. -/
def Pieces.new (pieces : List Bytes) : Pieces :=
  ⟨0, pieces⟩

/-- Pieces::next. -/
def Pieces.next (it : Pieces) : Option Bytes × Pieces :=
  match it.pieces.get? it.index with
  | some hash => (some hash, ⟨it.index + 1, it.pieces⟩)
  | none => (none, it)

/-- Repeatedly call Pieces::next, collecting the yielded elements. -/
def Pieces.collect : Pieces → Nat → List Bytes
  | _, 0 => []
  | it, fuel + 1 =>
    match Pieces.next it with
    | (some h, it2) => h :: Pieces.collect it2 fuel
    | (none, _) => []

/-- Iterator over each file path element within the MetainfoFile. -/
structure Paths where
  index : Nat
  paths : List String

/-- Paths::new. -/
def Paths.new (paths : List String) : Paths :=
  ⟨0, paths⟩

/-- Paths::next. -/
def Paths.next (it : Paths) : Option String × Paths :=
  match it.paths.get? it.index with
  | some p => (some p, ⟨it.index + 1, it.paths⟩)
  | none => (none, it)

/-- Repeatedly call Paths::next, collecting the yielded elements. -/
def Paths.collect : Paths → Nat → List String
  | _, 0 => []
  | it, fuel + 1 =>
    match Paths.next it with
    | (some p, it2) => p :: Paths.collect it2 fuel
    | (none, _) => []

/-! ### Helper lemmas -/

@[simp]
theorem dhtResult_bind_ok {α β : Type} (a : α) (f : α → DhtResult β) :
    (Except.ok a : DhtResult α) >>= f = f a := rfl

@[simp]
theorem dhtResult_bind_error {α β : Type} (e : DhtErrorKind) (f : α → DhtResult β) :
    (Except.error e : DhtResult α) >>= f = Except.error e := rfl

theorem files_collect_eq_drop (l : List File) :
    ∀ (fuel i : Nat), l.length - i ≤ fuel →
      Files.collect ⟨i, l⟩ fuel = l.drop i := by
  intro fuel
  induction fuel with
  | zero =>
    intro i h
    have hle : l.length ≤ i := by omega
    simp [Files.collect, List.drop_eq_nil_of_le hle]
  | succ n ihn =>
    intro i h
    by_cases hi : i < l.length
    · have hget : l.get? i = some (l.get ⟨i, hi⟩) := List.get?_eq_get hi
      simp only [Files.collect, Files.next, hget]
      rw [ihn (i + 1) (by omega), List.drop_eq_getElem_cons hi]
      simp [List.get_eq_getElem]
    · have hget : l.get? i = none := by
        rw [List.get?_eq_getElem?]
        exact List.getElem?_eq_none_iff.mpr (by omega)
      simp only [Files.collect, Files.next, hget]
      rw [List.drop_eq_nil_of_le (by omega : l.length ≤ i)]

theorem pieces_collect_eq_drop (l : List Bytes) :
    ∀ (fuel i : Nat), l.length - i ≤ fuel →
      Pieces.collect ⟨i, l⟩ fuel = l.drop i := by
  intro fuel
  induction fuel with
  | zero =>
    intro i h
    have hle : l.length ≤ i := by omega
    simp [Pieces.collect, List.drop_eq_nil_of_le hle]
  | succ n ihn =>
    intro i h
    by_cases hi : i < l.length
    · have hget : l.get? i = some (l.get ⟨i, hi⟩) := List.get?_eq_get hi
      simp only [Pieces.collect, Pieces.next, hget]
      rw [ihn (i + 1) (by omega), List.drop_eq_getElem_cons hi]
      simp [List.get_eq_getElem]
    · have hget : l.get? i = none := by
        rw [List.get?_eq_getElem?]
        exact List.getElem?_eq_none_iff.mpr (by omega)
      simp only [Pieces.collect, Pieces.next, hget]
      rw [List.drop_eq_nil_of_le (by omega : l.length ≤ i)]

theorem paths_collect_eq_drop (l : List String) :
    ∀ (fuel i : Nat), l.length - i ≤ fuel →
      Paths.collect ⟨i, l⟩ fuel = l.drop i := by
  intro fuel
  induction fuel with
  | zero =>
    intro i h
    have hle : l.length ≤ i := by omega
    simp [Paths.collect, List.drop_eq_nil_of_le hle]
  | succ n ihn =>
    intro i h
    by_cases hi : i < l.length
    · have hget : l.get? i = some (l.get ⟨i, hi⟩) := List.get?_eq_get hi
      simp only [Paths.collect, Paths.next, hget]
      rw [ihn (i + 1) (by omega), List.drop_eq_getElem_cons hi]
      simp [List.get_eq_getElem]
    · have hget : l.get? i = none := by
        rw [List.get?_eq_getElem?]
        exact List.getElem?_eq_none_iff.mpr (by omega)
      simp only [Paths.collect, Paths.next, hget]
      rw [List.drop_eq_nil_of_le (by omega : l.length ≤ i)]

/-! ### Claim theorems -/

/-- C10: each of the iterators Files, Pieces and Paths starts at index 0;
repeatedly calling next yields exactly the underlying slice's elements in
index order (collecting with any sufficient fuel returns the whole slice),
and once the index has reached the slice's length, next returns None and
leaves the state unchanged, so every subsequent call returns None as
well; in particular on an empty slice the very first call returns None. -/
theorem iterators_traverse_in_order :
    ((∀ l : List File, (Files.new l).index = 0) ∧
      (∀ (l : List File) (fuel : Nat), l.length ≤ fuel →
        Files.collect (Files.new l) fuel = l) ∧
      (∀ it : Files, it.files.length ≤ it.index → it.next = (none, it)) ∧
      Files.next (Files.new []) = (none, Files.new [])) ∧
    ((∀ l : List Bytes, (Pieces.new l).index = 0) ∧
      (∀ (l : List Bytes) (fuel : Nat), l.length ≤ fuel →
        Pieces.collect (Pieces.new l) fuel = l) ∧
      (∀ it : Pieces, it.pieces.length ≤ it.index → it.next = (none, it)) ∧
      Pieces.next (Pieces.new []) = (none, Pieces.new [])) ∧
    ((∀ l : List String, (Paths.new l).index = 0) ∧
      (∀ (l : List String) (fuel : Nat), l.length ≤ fuel →
        Paths.collect (Paths.new l) fuel = l) ∧
      (∀ it : Paths, it.paths.length ≤ it.index → it.next = (none, it)) ∧
      Paths.next (Paths.new []) = (none, Paths.new [])) := by
  refine ⟨⟨fun l => rfl, fun l fuel h => ?_, fun it h => ?_, rfl⟩,
    ⟨fun l => rfl, fun l fuel h => ?_, fun it h => ?_, rfl⟩,
    ⟨fun l => rfl, fun l fuel h => ?_, fun it h => ?_, rfl⟩⟩
  · have := files_collect_eq_drop l fuel 0 (by omega)
    simpa [Files.new] using this
  · have hget : it.files.get? it.index = none := by
      rw [List.get?_eq_getElem?]
      exact List.getElem?_eq_none_iff.mpr h
    simp only [Files.next, hget]
  · have := pieces_collect_eq_drop l fuel 0 (by omega)
    simpa [Pieces.new] using this
  · have hget : it.pieces.get? it.index = none := by
      rw [List.get?_eq_getElem?]
      exact List.getElem?_eq_none_iff.mpr h
    simp only [Pieces.next, hget]
  · have := paths_collect_eq_drop l fuel 0 (by omega)
    simpa [Paths.new] using this
  · have hget : it.paths.get? it.index = none := by
      rw [List.get?_eq_getElem?]
      exact List.getElem?_eq_none_iff.mpr h
    simp only [Paths.next, hget]

/-- Witness for C10 at concrete slices. -/
theorem iterators_traverse_in_order_witness :
    Files.collect (Files.new [⟨5⟩, ⟨7⟩]) 2 = [⟨5⟩, ⟨7⟩] ∧
    Pieces.collect (Pieces.new [[1], [2], [3]]) 3 = [[1], [2], [3]] ∧
    Paths.collect (Paths.new ["a", "b"]) 2 = ["a", "b"] ∧
    Files.next ⟨2, [⟨5⟩, ⟨7⟩]⟩ = (none, ⟨2, [⟨5⟩, ⟨7⟩]⟩) :=
  ⟨iterators_traverse_in_order.1.2.1 [⟨5⟩, ⟨7⟩] 2 (Nat.le_refl 2),
   iterators_traverse_in_order.2.1.2.1 [[1], [2], [3]] 3 (Nat.le_refl 3),
   iterators_traverse_in_order.2.2.2.1 ["a", "b"] 2 (Nat.le_refl 2),
   iterators_traverse_in_order.1.2.2.1 ⟨2, [⟨5⟩, ⟨7⟩]⟩ (by decide)⟩

/-- C3: GetPeersRequest::new fails with InvalidIdentifierLength whenever
the id or the hash does not have length exactly 20, succeeds when both
have length 20; GetPeersResponse::new fails with InvalidIdentifierLength
exactly when its node_id argument's length is not 20. -/
theorem new_validates_identifier_lengths :
    (∀ t node_id ihash : Bytes, node_id.length ≠ 20 ∨ ihash.length ≠ 20 →
      GetPeersRequest.new t node_id ihash = .error .invalidIdentifierLength) ∧
    (∀ t node_id ihash : Bytes, node_id.length = 20 → ihash.length = 20 →
      GetPeersRequest.new t node_id ihash = .ok ⟨t, node_id, ihash⟩) ∧
    (∀ (t node_id : Bytes) (tok : Option Bytes) (it : CompactInfoType),
      node_id.length ≠ 20 →
      GetPeersResponse.new t node_id tok it = .error .invalidIdentifierLength) ∧
    (∀ (t node_id : Bytes) (tok : Option Bytes) (it : CompactInfoType),
      node_id.length = 20 →
      GetPeersResponse.new t node_id tok it = .ok ⟨t, node_id, tok, it⟩) := by
  refine ⟨fun t nid ihash h => ?_, fun t nid ihash h1 h2 => ?_,
    fun t nid tok it h => ?_, fun t nid tok it h => ?_⟩
  · by_cases hn : nid.length = 20
    · have hh : ihash.length ≠ 20 := by tauto
      simp [GetPeersRequest.new, validate_node_id, hn, hh]
    · simp [GetPeersRequest.new, validate_node_id, hn]
  · simp [GetPeersRequest.new, validate_node_id, h1, h2]
  · simp [GetPeersResponse.new, validate_node_id, h]
  · simp [GetPeersResponse.new, validate_node_id, h]

/-- Witness for C3 at concrete identifiers. -/
theorem new_validates_identifier_lengths_witness :
    GetPeersRequest.new [97] [1] (List.replicate 20 2) =
      .error .invalidIdentifierLength ∧
    GetPeersRequest.new [97] (List.replicate 20 1) (List.replicate 20 2) =
      .ok ⟨[97], List.replicate 20 1, List.replicate 20 2⟩ ∧
    GetPeersResponse.new [97] [1] none
      (.Values ⟨[], rfl⟩) = .error .invalidIdentifierLength ∧
    GetPeersResponse.new [97] (List.replicate 20 1) none
      (.Values ⟨[], rfl⟩) =
      .ok ⟨[97], List.replicate 20 1, none, .Values ⟨[], rfl⟩⟩ :=
  ⟨new_validates_identifier_lengths.1 [97] [1] (List.replicate 20 2)
      (Or.inl (by decide)),
   new_validates_identifier_lengths.2.1 [97] (List.replicate 20 1)
      (List.replicate 20 2) rfl rfl,
   new_validates_identifier_lengths.2.2.1 [97] [1] none
      (.Values ⟨[], rfl⟩) (by decide),
   new_validates_identifier_lengths.2.2.2 [97] (List.replicate 20 1) none
      (.Values ⟨[], rfl⟩) rfl⟩

/-- C2: for every transaction id and 20-byte node id and info hash,
GetPeersRequest::new succeeds, its encoding's arguments dictionary holds
exactly the id and info_hash entries, and GetPeersRequest::from_parts on
that dictionary (with the same transaction id) succeeds and returns the
original transaction id, node id and info hash. -/
theorem request_roundtrip (t node_id ihash : Bytes)
    (h1 : node_id.length = 20) (h2 : ihash.length = 20) :
    GetPeersRequest.new t node_id ihash = .ok ⟨t, node_id, ihash⟩ ∧
    requestArgs (GetPeersRequest.encode ⟨t, node_id, ihash⟩) =
      some [(NODE_ID_KEY, .bytes node_id), (INFO_HASH_KEY, .bytes ihash)] ∧
    GetPeersRequest.from_parts
      [(NODE_ID_KEY, .bytes node_id), (INFO_HASH_KEY, .bytes ihash)] t =
      .ok ⟨t, node_id, ihash⟩ := by
  have hnew : GetPeersRequest.new t node_id ihash = .ok ⟨t, node_id, ihash⟩ :=
    new_validates_identifier_lengths.2.1 t node_id ihash h1 h2
  exact ⟨hnew, rfl, hnew⟩

/-- Witness for C2 at concrete inputs. -/
theorem request_roundtrip_witness :
    GetPeersRequest.new [97, 98] (List.replicate 20 3) (List.replicate 20 4) =
      .ok ⟨[97, 98], List.replicate 20 3, List.replicate 20 4⟩ ∧
    requestArgs (GetPeersRequest.encode
      ⟨[97, 98], List.replicate 20 3, List.replicate 20 4⟩) =
      some [(NODE_ID_KEY, .bytes (List.replicate 20 3)),
        (INFO_HASH_KEY, .bytes (List.replicate 20 4))] ∧
    GetPeersRequest.from_parts
      [(NODE_ID_KEY, .bytes (List.replicate 20 3)),
        (INFO_HASH_KEY, .bytes (List.replicate 20 4))] [97, 98] =
      .ok ⟨[97, 98], List.replicate 20 3, List.replicate 20 4⟩ :=
  request_roundtrip [97, 98] (List.replicate 20 3) (List.replicate 20 4) rfl rfl

/-- C8: the request built from trans_id "aa", node_id twenty 0x11 bytes
and info_hash twenty 0x22 bytes encodes to a dictionary mapping "t" to
"aa", "y" to "q", "q" to "get_peers" and "a" to the sub-dictionary with
"id" and "info_hash" mapped to those identifiers; reparsing the arguments
reproduces identical field values. -/
theorem concrete_request_scenario :
    GetPeersRequest.new [97, 97] (List.replicate 20 17) (List.replicate 20 34) =
      .ok ⟨[97, 97], List.replicate 20 17, List.replicate 20 34⟩ ∧
    GetPeersRequest.encode
      ⟨[97, 97], List.replicate 20 17, List.replicate 20 34⟩ =
      .dict [
        (REQUEST_ARGS_KEY, .dict [
          (NODE_ID_KEY, .bytes (List.replicate 20 17)),
          (INFO_HASH_KEY, .bytes (List.replicate 20 34))]),
        (REQUEST_TYPE_KEY, .bytes GET_PEERS_TYPE_KEY),
        (TRANSACTION_ID_KEY, .bytes [97, 97]),
        (MESSAGE_TYPE_KEY, .bytes REQUEST_TYPE_KEY)] ∧
    requestArgs (GetPeersRequest.encode
      ⟨[97, 97], List.replicate 20 17, List.replicate 20 34⟩) =
      some [(NODE_ID_KEY, .bytes (List.replicate 20 17)),
        (INFO_HASH_KEY, .bytes (List.replicate 20 34))] ∧
    GetPeersRequest.from_parts
      [(NODE_ID_KEY, .bytes (List.replicate 20 17)),
        (INFO_HASH_KEY, .bytes (List.replicate 20 34))] [97, 97] =
      .ok ⟨[97, 97], List.replicate 20 17, List.replicate 20 34⟩ :=
  ⟨rfl, rfl, rfl, rfl⟩

theorem validate_nodes_ok_nodes {n : Bytes} {ni : CompactNodeInfo}
    (h : validate_nodes n = .ok ni) : ni.nodes = n := by
  by_cases hm : n.length % 26 = 0
  · simp [validate_nodes, hm] at h
    simp [← h]
  · simp [validate_nodes, hm] at h

theorem validate_values_ok_values {l : List Bencode} {vi : CompactValueInfo}
    (h : validate_values l = .ok vi) : vi.values = l := by
  by_cases hm : l.all isCompactValue = true
  · simp [validate_values, hm] at h
    simp [← h]
  · simp [validate_values, hm] at h

/-- The nodes component of a payload, if any. -/
def infoNodes : CompactInfoType → Option CompactNodeInfo
  | .Nodes n => some n
  | .Values _ => none
  | .Both n _ => some n

/-- A concrete 20-byte node id used in witnesses. -/
def exNodeId : Bytes := List.replicate 20 5

/-- A concrete 26-byte nodes string used in witnesses. -/
def exNodes : Bytes := List.replicate 26 9

/-- The CompactNodeInfo view over exNodes. -/
def exNodeInfo : CompactNodeInfo := ⟨exNodes, by decide⟩

/-- A concrete valid values list (one 6-byte entry) used in witnesses. -/
def exValues : List Bencode := [.bytes [1, 2, 3, 4, 5, 6]]

/-- The CompactValueInfo view over exValues. -/
def exValueInfo : CompactValueInfo := ⟨exValues, by decide⟩

/-- C1: once the required "id" lookup has produced a valid node id,
GetPeersResponse::from_parts resolves the payload by case on the "nodes"
and "values" lookups: only "nodes" found gives the Nodes variant holding
the validated nodes, only "values" found gives the Values variant holding
the validated values, both found gives the Both variant preserving both
payloads unchanged, and neither found makes parsing fail with
InvalidResponse. -/
theorem from_parts_payload_cases (d : Dict) (t node_id : Bytes)
    (hid : lookup_and_convert_bytes d NODE_ID_KEY = .ok node_id)
    (hlen : node_id.length = 20) :
    (∀ (n : Bytes) (ni : CompactNodeInfo) (e : DhtErrorKind),
      lookup_and_convert_bytes d NODES_KEY = .ok n →
      lookup_and_convert_list d VALUES_KEY = .error e →
      validate_nodes n = .ok ni →
      GetPeersResponse.from_parts d t =
        .ok ⟨t, node_id, (lookup_and_convert_bytes d TOKEN_KEY).toOption,
          .Nodes ni⟩) ∧
    (∀ (vs : List Bencode) (vi : CompactValueInfo) (e : DhtErrorKind),
      lookup_and_convert_bytes d NODES_KEY = .error e →
      lookup_and_convert_list d VALUES_KEY = .ok vs →
      validate_values vs = .ok vi →
      GetPeersResponse.from_parts d t =
        .ok ⟨t, node_id, (lookup_and_convert_bytes d TOKEN_KEY).toOption,
          .Values vi⟩) ∧
    (∀ (n : Bytes) (vs : List Bencode) (ni : CompactNodeInfo)
        (vi : CompactValueInfo),
      lookup_and_convert_bytes d NODES_KEY = .ok n →
      lookup_and_convert_list d VALUES_KEY = .ok vs →
      validate_nodes n = .ok ni →
      validate_values vs = .ok vi →
      GetPeersResponse.from_parts d t =
        .ok ⟨t, node_id, (lookup_and_convert_bytes d TOKEN_KEY).toOption,
          .Both ni vi⟩ ∧ ni.nodes = n ∧ vi.values = vs) ∧
    (∀ e1 e2 : DhtErrorKind,
      lookup_and_convert_bytes d NODES_KEY = .error e1 →
      lookup_and_convert_list d VALUES_KEY = .error e2 →
      GetPeersResponse.from_parts d t = .error .invalidResponse) := by
  refine ⟨fun n ni e hn hv hni => ?_, fun vs vi e hn hv hvi => ?_,
    fun n vs ni vi hn hv hni hvi => ?_, fun e1 e2 hn hv => ?_⟩
  · simp [GetPeersResponse.from_parts, hid, hn, hv, hni,
      GetPeersResponse.new, validate_node_id, hlen]
  · simp [GetPeersResponse.from_parts, hid, hn, hv, hvi,
      GetPeersResponse.new, validate_node_id, hlen]
  · refine ⟨?_, validate_nodes_ok_nodes hni, validate_values_ok_values hvi⟩
    simp [GetPeersResponse.from_parts, hid, hn, hv, hni, hvi,
      GetPeersResponse.new, validate_node_id, hlen]
  · simp [GetPeersResponse.from_parts, hid, hn, hv]

/-- Witness for C1 at concrete dictionaries (one per payload case). -/
theorem from_parts_payload_cases_witness :
    GetPeersResponse.from_parts
      [(NODE_ID_KEY, .bytes exNodeId), (NODES_KEY, .bytes exNodes)] [116] =
      .ok ⟨[116], exNodeId, none, .Nodes exNodeInfo⟩ ∧
    GetPeersResponse.from_parts
      [(NODE_ID_KEY, .bytes exNodeId), (VALUES_KEY, .list exValues)] [116] =
      .ok ⟨[116], exNodeId, none, .Values exValueInfo⟩ ∧
    GetPeersResponse.from_parts
      [(NODE_ID_KEY, .bytes exNodeId), (NODES_KEY, .bytes exNodes),
        (VALUES_KEY, .list exValues)] [116] =
      .ok ⟨[116], exNodeId, none, .Both exNodeInfo exValueInfo⟩ ∧
    GetPeersResponse.from_parts
      [(NODE_ID_KEY, .bytes exNodeId), (TOKEN_KEY, .bytes [7])] [116] =
      .error .invalidResponse :=
  ⟨(from_parts_payload_cases
      [(NODE_ID_KEY, .bytes exNodeId), (NODES_KEY, .bytes exNodes)]
      [116] exNodeId rfl (by decide)).1
      exNodes exNodeInfo .missingKey rfl rfl rfl,
   (from_parts_payload_cases
      [(NODE_ID_KEY, .bytes exNodeId), (VALUES_KEY, .list exValues)]
      [116] exNodeId rfl (by decide)).2.1
      exValues exValueInfo .missingKey rfl rfl rfl,
   ((from_parts_payload_cases
      [(NODE_ID_KEY, .bytes exNodeId), (NODES_KEY, .bytes exNodes),
        (VALUES_KEY, .list exValues)]
      [116] exNodeId rfl (by decide)).2.2.1
      exNodes exValues exNodeInfo exValueInfo rfl rfl rfl rfl).1,
   (from_parts_payload_cases
      [(NODE_ID_KEY, .bytes exNodeId), (TOKEN_KEY, .bytes [7])]
      [116] exNodeId rfl (by decide)).2.2.2
      .missingKey .missingKey rfl rfl⟩

/-- C6: with the "id" lookup succeeding, a validation failure inside a
key that was looked up successfully propagates as that validation error
rather than as absence: a "nodes" byte string of length not a multiple
of 26 with no usable "values" key fails with InvalidNodesEncoding (which
is not InvalidResponse), and with no usable "nodes" key a present
"values" list holding a malformed entry fails with InvalidValueEncoding. -/
theorem present_key_failures_propagate (d : Dict) (t node_id : Bytes)
    (hid : lookup_and_convert_bytes d NODE_ID_KEY = .ok node_id) :
    (∀ (n : Bytes) (e : DhtErrorKind),
      lookup_and_convert_bytes d NODES_KEY = .ok n →
      n.length % 26 ≠ 0 →
      lookup_and_convert_list d VALUES_KEY = .error e →
      GetPeersResponse.from_parts d t = .error .invalidNodesEncoding ∧
        DhtErrorKind.invalidNodesEncoding ≠ DhtErrorKind.invalidResponse) ∧
    (∀ (vs : List Bencode) (e : DhtErrorKind),
      lookup_and_convert_bytes d NODES_KEY = .error e →
      lookup_and_convert_list d VALUES_KEY = .ok vs →
      vs.all isCompactValue = false →
      GetPeersResponse.from_parts d t = .error .invalidValueEncoding) := by
  refine ⟨fun n e hn hmod hv => ⟨?_, by decide⟩, fun vs e hn hv hall => ?_⟩
  · simp [GetPeersResponse.from_parts, hid, hn, hv, validate_nodes, hmod]
  · simp [GetPeersResponse.from_parts, hid, hn, hv, validate_values, hall]

/-- Witness for C6 at concrete dictionaries. -/
theorem present_key_failures_propagate_witness :
    GetPeersResponse.from_parts
      [(NODE_ID_KEY, .bytes exNodeId), (NODES_KEY, .bytes [9])] [116] =
      .error .invalidNodesEncoding ∧
    GetPeersResponse.from_parts
      [(NODE_ID_KEY, .bytes exNodeId), (VALUES_KEY, .list [.bytes [0]])]
      [116] = .error .invalidValueEncoding :=
  ⟨((present_key_failures_propagate
      [(NODE_ID_KEY, .bytes exNodeId), (NODES_KEY, .bytes [9])]
      [116] exNodeId rfl).1 [9] .missingKey rfl (by decide) rfl).1,
   (present_key_failures_propagate
      [(NODE_ID_KEY, .bytes exNodeId), (VALUES_KEY, .list [.bytes [0]])]
      [116] exNodeId rfl).2 [.bytes [0]] .missingKey rfl rfl (by decide)⟩

/-- C9: a "nodes" or "values" key present with a wrong bencode type
makes its lookup fail with WrongType, and from_parts treats it exactly
as an absent key.  For "nodes" held as a list: with no "values" key the
parse fails with InvalidResponse (not WrongType), while alongside a
valid "values" list it yields the Values variant.  Symmetrically for
"values" held as a byte string: with no "nodes" key the parse fails with
InvalidResponse, while alongside a valid "nodes" byte string it yields
the Nodes variant. -/
theorem wrong_typed_key_treated_as_absent (d : Dict) (t node_id : Bytes)
    (hid : lookup_and_convert_bytes d NODE_ID_KEY = .ok node_id) :
    (∀ l : List Bencode, dictLookup d NODES_KEY = some (.list l) →
      lookup_and_convert_bytes d NODES_KEY = .error .wrongType) ∧
    (∀ l : List Bencode, dictLookup d NODES_KEY = some (.list l) →
      dictLookup d VALUES_KEY = none →
      GetPeersResponse.from_parts d t = .error .invalidResponse) ∧
    (∀ (l vs : List Bencode) (vi : CompactValueInfo),
      dictLookup d NODES_KEY = some (.list l) →
      lookup_and_convert_list d VALUES_KEY = .ok vs →
      validate_values vs = .ok vi →
      node_id.length = 20 →
      GetPeersResponse.from_parts d t =
        .ok ⟨t, node_id, (lookup_and_convert_bytes d TOKEN_KEY).toOption,
          .Values vi⟩) ∧
    (∀ b : Bytes, dictLookup d VALUES_KEY = some (.bytes b) →
      lookup_and_convert_list d VALUES_KEY = .error .wrongType) ∧
    (∀ b : Bytes, dictLookup d VALUES_KEY = some (.bytes b) →
      dictLookup d NODES_KEY = none →
      GetPeersResponse.from_parts d t = .error .invalidResponse) ∧
    (∀ (b n : Bytes) (ni : CompactNodeInfo),
      dictLookup d VALUES_KEY = some (.bytes b) →
      lookup_and_convert_bytes d NODES_KEY = .ok n →
      validate_nodes n = .ok ni →
      node_id.length = 20 →
      GetPeersResponse.from_parts d t =
        .ok ⟨t, node_id, (lookup_and_convert_bytes d TOKEN_KEY).toOption,
          .Nodes ni⟩) := by
  refine ⟨fun l hl => ?_, fun l hl hv => ?_, fun l vs vi hl hv hvi hlen => ?_,
    fun b hv => ?_, fun b hv hn => ?_, fun b n ni hv hn hni hlen => ?_⟩
  · simp [lookup_and_convert_bytes, hl]
  · have hn : lookup_and_convert_bytes d NODES_KEY = .error .wrongType := by
      simp [lookup_and_convert_bytes, hl]
    have hvl : lookup_and_convert_list d VALUES_KEY = .error .missingKey := by
      simp [lookup_and_convert_list, hv]
    simp [GetPeersResponse.from_parts, hid, hn, hvl]
  · have hn : lookup_and_convert_bytes d NODES_KEY = .error .wrongType := by
      simp [lookup_and_convert_bytes, hl]
    simp [GetPeersResponse.from_parts, hid, hn, hv, hvi,
      GetPeersResponse.new, validate_node_id, hlen]
  · simp [lookup_and_convert_list, hv]
  · have hvl : lookup_and_convert_list d VALUES_KEY = .error .wrongType := by
      simp [lookup_and_convert_list, hv]
    have hnl : lookup_and_convert_bytes d NODES_KEY = .error .missingKey := by
      simp [lookup_and_convert_bytes, hn]
    simp [GetPeersResponse.from_parts, hid, hnl, hvl]
  · have hvl : lookup_and_convert_list d VALUES_KEY = .error .wrongType := by
      simp [lookup_and_convert_list, hv]
    simp [GetPeersResponse.from_parts, hid, hn, hvl, hni,
      GetPeersResponse.new, validate_node_id, hlen]

/-- Witness for C9 at concrete dictionaries, covering the wrong-typed
"nodes" cases and the wrong-typed "values" cases. -/
theorem wrong_typed_key_treated_as_absent_witness :
    GetPeersResponse.from_parts
      [(NODE_ID_KEY, .bytes exNodeId), (NODES_KEY, .list [])] [116] =
      .error .invalidResponse ∧
    GetPeersResponse.from_parts
      [(NODE_ID_KEY, .bytes exNodeId), (NODES_KEY, .list []),
        (VALUES_KEY, .list exValues)] [116] =
      .ok ⟨[116], exNodeId, none, .Values exValueInfo⟩ ∧
    GetPeersResponse.from_parts
      [(NODE_ID_KEY, .bytes exNodeId), (VALUES_KEY, .bytes [1])] [116] =
      .error .invalidResponse ∧
    GetPeersResponse.from_parts
      [(NODE_ID_KEY, .bytes exNodeId), (NODES_KEY, .bytes exNodes),
        (VALUES_KEY, .bytes [1])] [116] =
      .ok ⟨[116], exNodeId, none, .Nodes exNodeInfo⟩ :=
  ⟨(wrong_typed_key_treated_as_absent
      [(NODE_ID_KEY, .bytes exNodeId), (NODES_KEY, .list [])]
      [116] exNodeId rfl).2.1 [] rfl rfl,
   (wrong_typed_key_treated_as_absent
      [(NODE_ID_KEY, .bytes exNodeId), (NODES_KEY, .list []),
        (VALUES_KEY, .list exValues)]
      [116] exNodeId rfl).2.2.1 [] exValues exValueInfo rfl rfl rfl
      (by decide),
   (wrong_typed_key_treated_as_absent
      [(NODE_ID_KEY, .bytes exNodeId), (VALUES_KEY, .bytes [1])]
      [116] exNodeId rfl).2.2.2.2.1 [1] rfl rfl,
   (wrong_typed_key_treated_as_absent
      [(NODE_ID_KEY, .bytes exNodeId), (NODES_KEY, .bytes exNodes),
        (VALUES_KEY, .bytes [1])]
      [116] exNodeId rfl).2.2.2.2.2 [1] exNodes exNodeInfo rfl rfl rfl
      (by decide)⟩

/-- C7: a response constructed with token = None encodes to arguments
with no "token" key, reparsing those arguments succeeds and yields
token = None, and during from_parts a missing or non-byte-string "token"
value is swallowed into None by the best-effort lookup. -/
theorem token_none_roundtrip (t node_id : Bytes) (it : CompactInfoType)
    (hlen : node_id.length = 20) :
    GetPeersResponse.new t node_id none it = .ok ⟨t, node_id, none, it⟩ ∧
    responseArgs (GetPeersResponse.encode ⟨t, node_id, none, it⟩) =
      some ([(NODE_ID_KEY, .bytes node_id)] ++ encodeNodesEntry it ++
        encodeValuesEntry it) ∧
    dictLookup ([(NODE_ID_KEY, .bytes node_id)] ++ encodeNodesEntry it ++
      encodeValuesEntry it) TOKEN_KEY = none ∧
    GetPeersResponse.from_parts
      ([(NODE_ID_KEY, .bytes node_id)] ++ encodeNodesEntry it ++
        encodeValuesEntry it) t = .ok ⟨t, node_id, none, it⟩ ∧
    (∀ d2 : Dict, dictLookup d2 TOKEN_KEY = none →
      (lookup_and_convert_bytes d2 TOKEN_KEY).toOption = none) ∧
    (∀ (d2 : Dict) (v : Bencode), dictLookup d2 TOKEN_KEY = some v →
      (∀ b : Bytes, v ≠ .bytes b) →
      (lookup_and_convert_bytes d2 TOKEN_KEY).toOption = none) := by
  refine ⟨?_, ?_, ?_, ?_, fun d2 h => ?_, fun d2 v h hv => ?_⟩
  · simp [GetPeersResponse.new, validate_node_id, hlen]
  · cases it <;> rfl
  · cases it <;> simp [encodeNodesEntry, encodeValuesEntry, dictLookup,
      NODE_ID_KEY, NODES_KEY, VALUES_KEY, TOKEN_KEY, encodeTokenEntry]
  · cases it with
    | Nodes n =>
      simp [GetPeersResponse.from_parts, encodeNodesEntry, encodeValuesEntry,
        lookup_and_convert_bytes, lookup_and_convert_list, dictLookup,
        NODE_ID_KEY, NODES_KEY, VALUES_KEY, TOKEN_KEY, Except.toOption,
        validate_nodes, n.nodes_mod,
        GetPeersResponse.new, validate_node_id, hlen]
    | Values v =>
      simp [GetPeersResponse.from_parts, encodeNodesEntry, encodeValuesEntry,
        lookup_and_convert_bytes, lookup_and_convert_list, dictLookup,
        NODE_ID_KEY, NODES_KEY, VALUES_KEY, TOKEN_KEY, Except.toOption,
        validate_values, v.values_valid,
        GetPeersResponse.new, validate_node_id, hlen]
    | Both n v =>
      simp [GetPeersResponse.from_parts, encodeNodesEntry, encodeValuesEntry,
        lookup_and_convert_bytes, lookup_and_convert_list, dictLookup,
        NODE_ID_KEY, NODES_KEY, VALUES_KEY, TOKEN_KEY, Except.toOption,
        validate_nodes, n.nodes_mod, validate_values, v.values_valid,
        GetPeersResponse.new, validate_node_id, hlen]
  · simp [lookup_and_convert_bytes, h, Except.toOption]
  · cases v with
    | bytes b => exact absurd rfl (hv b)
    | int i => simp [lookup_and_convert_bytes, h, Except.toOption]
    | list l => simp [lookup_and_convert_bytes, h, Except.toOption]
    | dict dd => simp [lookup_and_convert_bytes, h, Except.toOption]

/-- Witness for C7 at a concrete response. -/
theorem token_none_roundtrip_witness :
    GetPeersResponse.from_parts
      ([(NODE_ID_KEY, .bytes exNodeId)] ++
        encodeNodesEntry (.Nodes exNodeInfo) ++
        encodeValuesEntry (.Nodes exNodeInfo)) [116] =
      .ok ⟨[116], exNodeId, none, .Nodes exNodeInfo⟩ :=
  (token_none_roundtrip [116] exNodeId (.Nodes exNodeInfo)
    (by decide)).2.2.2.1

/-- Counterexample to C4 as stated: a response dictionary containing a
"nodes" byte string of length 26 * 1 on which parsing nevertheless fails
(the sibling "values" list is malformed, so validation fails with
InvalidValueEncoding), and a dictionary containing a "nodes" byte string
of length 1 on which parsing fails with MissingKey (no "id"), not with
InvalidNodesEncoding. -/
theorem nodes_claim_counterexample :
    GetPeersResponse.from_parts
      [(NODE_ID_KEY, .bytes exNodeId), (NODES_KEY, .bytes exNodes),
        (VALUES_KEY, .list [.bytes [0]])] [116] =
      .error .invalidValueEncoding ∧
    exNodes.length = 26 * 1 ∧
    GetPeersResponse.from_parts [(NODES_KEY, .bytes [9])] [116] =
      .error .missingKey :=
  ⟨rfl, rfl, rfl⟩

/-- C4 amended: for a response dictionary whose "id" lookup succeeds and
whose "nodes" lookup yields a byte string: a length not a multiple of 26
makes from_parts fail with InvalidNodesEncoding; and when the length is
exactly 26 * k, the id is 20 bytes, and any present "values" list is
well-formed, parsing succeeds and the resulting CompactNodeInfo view
holds the nodes bytes and contains exactly k records. -/
theorem nodes_validation_amended (d : Dict) (t node_id n : Bytes)
    (hid : lookup_and_convert_bytes d NODE_ID_KEY = .ok node_id)
    (hn : lookup_and_convert_bytes d NODES_KEY = .ok n) :
    (n.length % 26 ≠ 0 →
      GetPeersResponse.from_parts d t = .error .invalidNodesEncoding) ∧
    (∀ k : Nat, n.length = 26 * k → node_id.length = 20 →
      (∀ vs : List Bencode, lookup_and_convert_list d VALUES_KEY = .ok vs →
        vs.all isCompactValue = true) →
      ∃ (r : GetPeersResponse) (ni : CompactNodeInfo),
        GetPeersResponse.from_parts d t = .ok r ∧
        infoNodes r.info_type = some ni ∧ ni.nodes = n ∧ ni.len = k) := by
  constructor
  · intro hmod
    cases hv : lookup_and_convert_list d VALUES_KEY with
    | ok vs =>
      simp [GetPeersResponse.from_parts, hid, hn, hv, validate_nodes, hmod]
    | error e =>
      simp [GetPeersResponse.from_parts, hid, hn, hv, validate_nodes, hmod]
  · intro k hk hlen hvals
    have hmod : n.length % 26 = 0 := by
      rw [hk]; exact Nat.mul_mod_right 26 k
    have hcount : CompactNodeInfo.len ⟨n, hmod⟩ = k := by
      show n.length / 26 = k
      rw [hk]; exact Nat.mul_div_cancel_left k (by norm_num)
    cases hv : lookup_and_convert_list d VALUES_KEY with
    | ok vs =>
      have hall := hvals vs hv
      refine ⟨⟨t, node_id, (lookup_and_convert_bytes d TOKEN_KEY).toOption,
        .Both ⟨n, hmod⟩ ⟨vs, hall⟩⟩, ⟨n, hmod⟩, ?_, rfl, rfl, hcount⟩
      simp [GetPeersResponse.from_parts, hid, hn, hv, validate_nodes, hmod,
        validate_values, hall, GetPeersResponse.new, validate_node_id, hlen]
    | error e =>
      refine ⟨⟨t, node_id, (lookup_and_convert_bytes d TOKEN_KEY).toOption,
        .Nodes ⟨n, hmod⟩⟩, ⟨n, hmod⟩, ?_, rfl, rfl, hcount⟩
      simp [GetPeersResponse.from_parts, hid, hn, hv, validate_nodes, hmod,
        GetPeersResponse.new, validate_node_id, hlen]

/-- Witness for the amended C4 at a concrete dictionary. -/
theorem nodes_validation_amended_witness :
    GetPeersResponse.from_parts
      [(NODE_ID_KEY, .bytes exNodeId), (NODES_KEY, .bytes [9])] [116] =
      .error .invalidNodesEncoding :=
  (nodes_validation_amended
    [(NODE_ID_KEY, .bytes exNodeId), (NODES_KEY, .bytes [9])]
    [116] exNodeId [9] rfl rfl).1 (by decide)

/-- Counterexample to C5 as stated: a response dictionary containing a
"values" list with a 1-byte entry on which parsing fails with
InvalidNodesEncoding (the sibling "nodes" byte string has a bad stride
and is validated first), not with InvalidValueEncoding; and one on which
parsing fails with MissingKey (no "id"). -/
theorem values_claim_counterexample :
    GetPeersResponse.from_parts
      [(NODE_ID_KEY, .bytes exNodeId), (NODES_KEY, .bytes [9]),
        (VALUES_KEY, .list [.bytes [0]])] [116] =
      .error .invalidNodesEncoding ∧
    GetPeersResponse.from_parts [(VALUES_KEY, .list [.bytes [0]])] [116] =
      .error .missingKey :=
  ⟨rfl, rfl⟩

/-- C5 amended: for a response dictionary whose "id" lookup succeeds,
whose "values" lookup yields a list, and whose "nodes" byte string (if
its lookup succeeds) has a length that is a multiple of 26: if some
element of the values list is not a 6-byte string, from_parts fails with
InvalidValueEncoding; and whenever every element is a 6-byte string,
validate_values succeeds and yields the CompactValueInfo view over
exactly those entries. -/
theorem values_validation_amended (d : Dict) (t node_id : Bytes)
    (vs : List Bencode)
    (hid : lookup_and_convert_bytes d NODE_ID_KEY = .ok node_id)
    (hvs : lookup_and_convert_list d VALUES_KEY = .ok vs)
    (hnodes : ∀ n : Bytes, lookup_and_convert_bytes d NODES_KEY = .ok n →
      n.length % 26 = 0) :
    (∀ v : Bencode, v ∈ vs → isCompactValue v = false →
      GetPeersResponse.from_parts d t = .error .invalidValueEncoding) ∧
    (∀ h : vs.all isCompactValue = true,
      validate_values vs = .ok ⟨vs, h⟩) := by
  constructor
  · intro v hv hbad
    have hall : vs.all isCompactValue = false :=
      List.all_eq_false.mpr ⟨v, hv, by simp [hbad]⟩
    cases hn : lookup_and_convert_bytes d NODES_KEY with
    | ok n =>
      have hmod := hnodes n hn
      simp [GetPeersResponse.from_parts, hid, hn, hvs, validate_nodes, hmod,
        validate_values, hall]
    | error e =>
      simp [GetPeersResponse.from_parts, hid, hn, hvs, validate_values, hall]
  · intro h
    simp [validate_values, h]

/-- Witness for the amended C5 at a concrete dictionary. -/
theorem values_validation_amended_witness :
    GetPeersResponse.from_parts
      [(NODE_ID_KEY, .bytes exNodeId), (VALUES_KEY, .list [.bytes [0]])]
      [116] = .error .invalidValueEncoding :=
  (values_validation_amended
    [(NODE_ID_KEY, .bytes exNodeId), (VALUES_KEY, .list [.bytes [0]])]
    [116] exNodeId [.bytes [0]] rfl rfl
    (fun n hn => by
      simp [lookup_and_convert_bytes, dictLookup, NODE_ID_KEY, NODES_KEY,
        VALUES_KEY] at hn)).1
    (.bytes [0]) (by simp) (by decide)

end BipRs
